import Mathlib

set_option maxHeartbeats 1000000

/-!
Shallow embedding of `src/main.rs` of the data-collection batch job.

The program: `fn main` initializes a logger, logs "Starting up", opens a
jfs `Store` at "data", then loops five times: blocking HTTP GET, abort on
4xx/5xx status, deserialize the body with serde_json into `CatFact`,
`db.save`, log the generated key, sleep 5000 ms.  Any `?`-propagated error
makes the process exit with a non-zero status.

External effects (network fetch, store save, store open) are modelled by an
environment `Env` of oracles; the run produces a trace of observable events
plus an exit code.  JSON numbers are modelled as integers (every numeric
field of the schema is an `i32`).
-/

/-- JSON values (numbers restricted to integers, which covers every field of
the schema; a fractional number in a numeric field would be one more wrong
type). -/
inductive Json where
  | null : Json
  | bool : Bool → Json
  | num : Int → Json
  | str : String → Json
  | arr : List Json → Json
  | obj : List (String × Json) → Json

/-- The nested `Status` struct of `src/main.rs` (fields `verified: bool`,
`sentCount: i32`). -/
structure Status where
  verified : Bool
  sentCount : Int
deriving DecidableEq, Repr

/-- The `CatFact` struct of `src/main.rs`: `used: bool`, `source: String`,
`r#type: String`, `deleted: bool`, `_id: String`, `__v: i32`,
`text: String`, `updatedAt: String`, `createdAt: String`, `status: Status`,
`user: String`. -/
structure CatFact where
  used : Bool
  source : String
  type : String
  deleted : Bool
  _id : String
  __v : Int
  text : String
  updatedAt : String
  createdAt : String
  status : Status
  user : String
deriving DecidableEq, Repr

/-- Deserialize a JSON value at Rust type `bool` (serde: exact type match). -/
def decodeBool : Json → Except String Bool
  | Json.bool b => Except.ok b
  | _ => Except.error "invalid type, expected bool"

/-- Deserialize a JSON value at Rust type `String`. -/
def decodeStr : Json → Except String String
  | Json.str s => Except.ok s
  | _ => Except.error "invalid type, expected string"

/-- Deserialize a JSON value at Rust type `i32`: must be an integral number
within the `i32` range. -/
def decodeI32 : Json → Except String Int
  | Json.num n =>
      if -2147483648 ≤ n ∧ n ≤ 2147483647 then Except.ok n
      else Except.error "number out of range for i32"
  | _ => Except.error "invalid type, expected i32"

/-- Extract the value of field `name` from a JSON object's field list with
serde's derived-`Deserialize` semantics: absent means a "missing field"
error, present twice means a "duplicate field" error, present once yields
the value.  Fields with other names are ignored (the derive has no
`deny_unknown_fields` attribute). -/
def getUnique (fields : List (String × Json)) (name : String) : Except String Json :=
  match fields.filter (fun p => p.1 = name) with
  | [] => Except.error ("missing field " ++ name)
  | [p] => Except.ok p.2
  | _ => Except.error ("duplicate field " ++ name)

/-- serde-derived `Deserialize` for `Status`. -/
def Status.fromJson : Json → Except String Status
  | Json.obj fields =>
      Except.bind (getUnique fields "verified") fun v0 =>
      Except.bind (decodeBool v0) fun verified =>
      Except.bind (getUnique fields "sentCount") fun v1 =>
      Except.bind (decodeI32 v1) fun sentCount =>
      Except.ok ⟨verified, sentCount⟩
  | _ => Except.error "invalid type, expected object for Status"

/-- serde-derived `Deserialize` for `CatFact`: each declared field must be
present exactly once with a value of the declared type; unknown fields are
ignored because the derive has no `deny_unknown_fields` attribute. -/
def CatFact.fromJson : Json → Except String CatFact
  | Json.obj fields =>
      Except.bind (getUnique fields "used") fun v0 =>
      Except.bind (decodeBool v0) fun used =>
      Except.bind (getUnique fields "source") fun v1 =>
      Except.bind (decodeStr v1) fun source =>
      Except.bind (getUnique fields "type") fun v2 =>
      Except.bind (decodeStr v2) fun ty =>
      Except.bind (getUnique fields "deleted") fun v3 =>
      Except.bind (decodeBool v3) fun deleted =>
      Except.bind (getUnique fields "_id") fun v4 =>
      Except.bind (decodeStr v4) fun id0 =>
      Except.bind (getUnique fields "__v") fun v5 =>
      Except.bind (decodeI32 v5) fun vv =>
      Except.bind (getUnique fields "text") fun v6 =>
      Except.bind (decodeStr v6) fun text =>
      Except.bind (getUnique fields "updatedAt") fun v7 =>
      Except.bind (decodeStr v7) fun updatedAt =>
      Except.bind (getUnique fields "createdAt") fun v8 =>
      Except.bind (decodeStr v8) fun createdAt =>
      Except.bind (getUnique fields "status") fun v9 =>
      Except.bind (Status.fromJson v9) fun status =>
      Except.bind (getUnique fields "user") fun v10 =>
      Except.bind (decodeStr v10) fun user =>
      Except.ok ⟨used, source, ty, deleted, id0, vv, text, updatedAt, createdAt, status, user⟩
  | _ => Except.error "invalid type, expected object for CatFact"

/-- The field names of the `CatFact` schema, in declaration order. -/
def catFactFieldNames : List String :=
  ["used", "source", "type", "deleted", "_id", "__v", "text",
   "updatedAt", "createdAt", "status", "user"]

/-- JSON-level types of the schema's fields. -/
inductive JTy where
  | bool : JTy
  | str : JTy
  | int : JTy
  | stat : JTy
deriving DecidableEq, Repr

/-- The declared JSON-level type of each `CatFact` field (`none` for names
not in the schema). -/
def catFactFieldTy (name : String) : Option JTy :=
  if name = "used" then some JTy.bool
  else if name = "source" then some JTy.str
  else if name = "type" then some JTy.str
  else if name = "deleted" then some JTy.bool
  else if name = "_id" then some JTy.str
  else if name = "__v" then some JTy.int
  else if name = "text" then some JTy.str
  else if name = "updatedAt" then some JTy.str
  else if name = "createdAt" then some JTy.str
  else if name = "status" then some JTy.stat
  else if name = "user" then some JTy.str
  else none

/-- Whether a JSON value has the given JSON-level type. -/
def tyMatches : JTy → Json → Bool
  | JTy.bool, Json.bool _ => true
  | JTy.str, Json.str _ => true
  | JTy.int, Json.num _ => true
  | JTy.stat, Json.obj _ => true
  | _, _ => false

/-- A concrete well-formed `status` sub-object. -/
def sampleStatusJson : Json :=
  Json.obj [("verified", Json.bool true), ("sentCount", Json.num 3)]

/-- A concrete well-formed response body. -/
def sampleJson : Json :=
  Json.obj
    [("used", Json.bool false), ("source", Json.str "api"),
     ("type", Json.str "cat"), ("deleted", Json.bool false),
     ("_id", Json.str "abc123"), ("__v", Json.num 0),
     ("text", Json.str "Cats sleep a lot."),
     ("updatedAt", Json.str "2020-01-01"),
     ("createdAt", Json.str "2019-01-01"),
     ("status", sampleStatusJson), ("user", Json.str "u1")]

/-- The record `sampleJson` decodes to. -/
def sampleRec : CatFact :=
  ⟨false, "api", "cat", false, "abc123", 0, "Cats sleep a lot.",
   "2020-01-01", "2019-01-01", ⟨true, 3⟩, "u1"⟩

example : CatFact.fromJson sampleJson = Except.ok sampleRec := by rfl

/-- An HTTP response: the status code, and the result of reading and
JSON-parsing the body (`response.text()?` followed by
`serde_json::from_str`; an `error` covers a body-read or parse failure). -/
structure HttpResponse where
  status : Nat
  body : Except String Json

/-- Outcome of one blocking GET: a transport-level failure or a response. -/
inductive FetchOutcome where
  | err : String → FetchOutcome
  | ok : HttpResponse → FetchOutcome

/-- The external world of one run: the result of `Store::new("data")`, the
fetch outcome of each (1-based) iteration, and the store's reaction to each
`save` call. -/
structure Env where
  openResult : Except String Unit
  fetch : Nat → FetchOutcome
  save : Nat → CatFact → Except String String

/-- Observable events of a run, in order of occurrence. -/
inductive Event where
  | logStart : Event
  | fetchStart : Nat → Event
  | transportError : String → Event
  | statusError : Nat → Event
  | decodeError : String → Event
  | storeOpenError : String → Event
  | storeError : String → Event
  | savedRec : Nat → String → CatFact → Event
  | logSave : String → Event
  | sleepMs : Nat → Event
deriving DecidableEq, Repr

/-- `db.save(&string)?` followed by the success log and the 5000 ms sleep
(`info!("Written one file with key: ...")`, `thread::sleep`). -/
def saveStep (env : Env) (n : Nat) (rec : CatFact) : List Event × Option String :=
  match env.save n rec with
  | Except.error m => ([Event.storeError m], some m)
  | Except.ok key => ([Event.savedRec n key rec, Event.logSave key, Event.sleepMs 5000], none)

/-- The part of an iteration after the status check: read and decode the
body (`serde_json::from_str(&response.text()?)?`), then save. -/
def afterStatus (env : Env) (n : Nat) (body : Except String Json) : List Event × Option String :=
  match body with
  | Except.error m => ([Event.decodeError m], some m)
  | Except.ok j =>
      match CatFact.fromJson j with
      | Except.error m => ([Event.decodeError m], some m)
      | Except.ok rec => saveStep env n rec

/-- `response.status().is_client_error()`: 400 ≤ status ≤ 499. -/
def isClientError (s : Nat) : Bool := 400 ≤ s && s ≤ 499

/-- `response.status().is_server_error()`: 500 ≤ status ≤ 599. -/
def isServerError (s : Nat) : Bool := 500 ≤ s && s ≤ 599

/-- The guard of the early return in the loop body. -/
def statusBad (s : Nat) : Bool := isClientError s || isServerError s

/-- One pass of the loop body (iteration `n`): fetch, abort on a transport
error, abort with `Server responded with: <status>` on a 4xx/5xx status,
otherwise decode and save.  Returns the events of the pass and `some`
error message when the pass makes `main` return `Err`. -/
def iterStep (env : Env) (n : Nat) : List Event × Option String :=
  match env.fetch n with
  | FetchOutcome.err m => ([Event.fetchStart n, Event.transportError m], some m)
  | FetchOutcome.ok resp =>
      if statusBad resp.status then
        ([Event.fetchStart n, Event.statusError resp.status],
         some ("Server responded with: " ++ toString resp.status))
      else
        let rest := afterStatus env n resp.body
        (Event.fetchStart n :: rest.1, rest.2)

/-- The `loop` of `main`, starting at iteration `n` with `fuel` iterations
left before `count == 5` breaks out.  Returns the trace and the exit code
(`0` for `Ok(())`, `1` for an `Err` return). -/
def runLoop (env : Env) : Nat → Nat → List Event × Nat
  | _, 0 => ([], 0)
  | n, Nat.succ fuel =>
      let step := iterStep env n
      match step.2 with
      | some _ => (step.1, 1)
      | none =>
          let rest := runLoop env (n + 1) fuel
          (step.1 ++ rest.1, rest.2)

/-- `fn main`: log "Starting up", open the store (failure exits non-zero
before any fetch), then run the five iterations. -/
def runMain (env : Env) : List Event × Nat :=
  match env.openResult with
  | Except.error m => ([Event.logStart, Event.storeOpenError m], 1)
  | Except.ok _ =>
      let r := runLoop env 1 5
      (Event.logStart :: r.1, r.2)

/-- The informational log line an event emits, if any (`info!` calls). -/
def Event.infoLine : Event → Option String
  | Event.logStart => some "Starting up"
  | Event.logSave k => some ("Written one file with key: " ++ k)
  | _ => none

/-- All informational log lines of a trace, in order. -/
def infoLines (tr : List Event) : List String := tr.filterMap Event.infoLine

/-- The records persisted by the store during a trace, with their keys, in
order of saving. -/
def savedRecords (tr : List Event) : List (String × CatFact) :=
  tr.filterMap fun e =>
    match e with
    | Event.savedRec _ k r => some (k, r)
    | _ => none

/-- Number of sleeps performed in a trace. -/
def sleepCount (tr : List Event) : Nat :=
  tr.countP fun e =>
    match e with
    | Event.sleepMs _ => true
    | _ => false

/-- Number of per-save success log lines in a trace. -/
def saveLogCount (tr : List Event) : Nat :=
  tr.countP fun e =>
    match e with
    | Event.logSave _ => true
    | _ => false

/-- Number of fetches started in a trace (= iterations executed). -/
def fetchCount (tr : List Event) : Nat :=
  tr.countP fun e =>
    match e with
    | Event.fetchStart _ => true
    | _ => false

/-- Iteration `n` is healthy: the fetch succeeds, the status is not 4xx/5xx,
the body parses and decodes, and the save succeeds. -/
def healthyAt (env : Env) (n : Nat) : Prop :=
  ∃ s j rec key,
    env.fetch n = FetchOutcome.ok ⟨s, Except.ok j⟩ ∧ statusBad s = false ∧
    CatFact.fromJson j = Except.ok rec ∧ env.save n rec = Except.ok key

/-- An environment in which every iteration is healthy. -/
def healthyEnv : Env where
  openResult := Except.ok ()
  fetch := fun _ => FetchOutcome.ok ⟨200, Except.ok sampleJson⟩
  save := fun n _ => Except.ok ("key" ++ toString n)

/-- The fields of `sampleJson` plus an extra field `bonus` that is not in
the `CatFact` schema. -/
def extraFieldJson : Json :=
  Json.obj
    [("used", Json.bool false), ("source", Json.str "api"),
     ("type", Json.str "cat"), ("deleted", Json.bool false),
     ("_id", Json.str "abc123"), ("__v", Json.num 0),
     ("text", Json.str "Cats sleep a lot."),
     ("updatedAt", Json.str "2020-01-01"),
     ("createdAt", Json.str "2019-01-01"),
     ("status", sampleStatusJson), ("user", Json.str "u1"),
     ("bonus", Json.num 1)]

/-- The fields of `sampleJson` with the required `text` field omitted. -/
def textlessFields : List (String × Json) :=
  [("used", Json.bool false), ("source", Json.str "api"),
   ("type", Json.str "cat"), ("deleted", Json.bool false),
   ("_id", Json.str "abc123"), ("__v", Json.num 0),
   ("updatedAt", Json.str "2020-01-01"),
   ("createdAt", Json.str "2019-01-01"),
   ("status", sampleStatusJson), ("user", Json.str "u1")]

/-- An environment whose upstream always answers HTTP 404. -/
def env404 : Env where
  openResult := Except.ok ()
  fetch := fun _ => FetchOutcome.ok ⟨404, Except.ok sampleJson⟩
  save := fun n _ => Except.ok ("key" ++ toString n)

/-- An environment that is healthy except that iteration 3 gets HTTP 404. -/
def envFailAt3 : Env where
  openResult := Except.ok ()
  fetch := fun n =>
    if n = 3 then FetchOutcome.ok ⟨404, Except.ok sampleJson⟩
    else FetchOutcome.ok ⟨200, Except.ok sampleJson⟩
  save := fun n _ => Except.ok ("key" ++ toString n)

/-- A body whose record has `deleted = true` and `used = true`. -/
def deletedJson : Json :=
  Json.obj
    [("used", Json.bool true), ("source", Json.str "api"),
     ("type", Json.str "cat"), ("deleted", Json.bool true),
     ("_id", Json.str "zzz"), ("__v", Json.num 7),
     ("text", Json.str "A deleted fact."),
     ("updatedAt", Json.str "2020-01-01"),
     ("createdAt", Json.str "2019-01-01"),
     ("status", sampleStatusJson), ("user", Json.str "u2")]

/-- The record `deletedJson` decodes to. -/
def deletedRec : CatFact :=
  ⟨true, "api", "cat", true, "zzz", 7, "A deleted fact.",
   "2020-01-01", "2019-01-01", ⟨true, 3⟩, "u2"⟩

/-- An environment serving the `deleted = true` body. -/
def envDeleted : Env where
  openResult := Except.ok ()
  fetch := fun _ => FetchOutcome.ok ⟨200, Except.ok deletedJson⟩
  save := fun _ _ => Except.ok "k0"

/-- An environment whose store fails to open. -/
def badOpenEnv : Env where
  openResult := Except.error "permission denied on data"
  fetch := fun _ => FetchOutcome.ok ⟨200, Except.ok sampleJson⟩
  save := fun n _ => Except.ok ("key" ++ toString n)

/-- A successful `Except.bind` comes from a successful first component. -/
theorem bind_ok {α β : Type} {x : Except String α} {f : α → Except String β} {b : β}
    (h : Except.bind x f = Except.ok b) : ∃ a, x = Except.ok a ∧ f a = Except.ok b := by
  cases x with
  | error e => exact absurd h (by simp [Except.bind])
  | ok a => exact ⟨a, rfl, h⟩

/-- A field absent from the keys filters to the empty list. -/
theorem filter_eq_nil_of_not_mem {fields : List (String × Json)} {name : String}
    (h : ¬ name ∈ fields.map Prod.fst) :
    fields.filter (fun p => p.1 = name) = [] := by
  refine List.filter_eq_nil_iff.mpr ?_
  intro p hp hpn
  exact h (List.mem_map.mpr ⟨p, hp, by simpa using hpn⟩)

/-- `getUnique` on a missing field errors. -/
theorem getUnique_missing {fields : List (String × Json)} {name : String}
    (h : ¬ name ∈ fields.map Prod.fst) :
    getUnique fields name = Except.error ("missing field " ++ name) := by
  unfold getUnique
  rw [filter_eq_nil_of_not_mem h]

/-- A successful `getUnique` exposes the singleton filter result. -/
theorem getUnique_ok_filter {fields : List (String × Json)} {name : String} {w : Json}
    (h : getUnique fields name = Except.ok w) :
    fields.filter (fun p => p.1 = name) = [(name, w)] := by
  unfold getUnique at h
  cases hf : fields.filter (fun p => p.1 = name) with
  | nil => rw [hf] at h; exact absurd h (by simp)
  | cons p rest =>
    cases rest with
    | nil =>
      rw [hf] at h
      have hp : p ∈ fields.filter (fun p => p.1 = name) := by rw [hf]; exact List.mem_singleton.mpr rfl
      have hpn : p.1 = name := by simpa using (List.mem_filter.mp hp).2
      cases h
      cases p
      simp_all
    | cons q rest2 => rw [hf] at h; exact absurd h (by simp)

/-- Every occurrence of a field in the object carries the value that
`getUnique` returned. -/
theorem mem_eq_of_getUnique_ok {fields : List (String × Json)} {name : String} {v w : Json}
    (h : getUnique fields name = Except.ok w) (hm : (name, v) ∈ fields) : v = w := by
  have hf := getUnique_ok_filter h
  have : (name, v) ∈ fields.filter (fun p => p.1 = name) :=
    List.mem_filter.mpr ⟨hm, by simp⟩
  rw [hf] at this
  simpa using this

/-- A value that decodes at `bool` is a JSON boolean. -/
theorem decodeBool_ty {v : Json} {b : Bool} (h : decodeBool v = Except.ok b) :
    tyMatches JTy.bool v = true := by
  cases v <;> simp_all [decodeBool, tyMatches]

/-- A value that decodes at `String` is a JSON string. -/
theorem decodeStr_ty {v : Json} {s : String} (h : decodeStr v = Except.ok s) :
    tyMatches JTy.str v = true := by
  cases v <;> simp_all [decodeStr, tyMatches]

/-- A value that decodes at `i32` is a JSON number. -/
theorem decodeI32_ty {v : Json} {n : Int} (h : decodeI32 v = Except.ok n) :
    tyMatches JTy.int v = true := by
  cases v <;> simp_all [decodeI32, tyMatches]

/-- A value that decodes as a `Status` is a JSON object. -/
theorem statusFromJson_ty {v : Json} {s : Status} (h : Status.fromJson v = Except.ok s) :
    tyMatches JTy.stat v = true := by
  cases v <;> simp_all [Status.fromJson, tyMatches]

/-- Characterization of successful decoding: every schema field was found
exactly once by `getUnique`, and every occurrence of a schema field in the
object has the declared JSON type. -/
theorem fromJson_ok_fields {fields : List (String × Json)} {r : CatFact}
    (h : CatFact.fromJson (Json.obj fields) = Except.ok r) :
    (∀ name, name ∈ catFactFieldNames → ∃ w, getUnique fields name = Except.ok w) ∧
    (∀ k v ty, (k, v) ∈ fields → catFactFieldTy k = some ty → tyMatches ty v = true) := by
  unfold CatFact.fromJson at h
  obtain ⟨v0, g0, h⟩ := bind_ok h
  obtain ⟨used, d0, h⟩ := bind_ok h
  obtain ⟨v1, g1, h⟩ := bind_ok h
  obtain ⟨source, d1, h⟩ := bind_ok h
  obtain ⟨v2, g2, h⟩ := bind_ok h
  obtain ⟨ty2, d2, h⟩ := bind_ok h
  obtain ⟨v3, g3, h⟩ := bind_ok h
  obtain ⟨deleted, d3, h⟩ := bind_ok h
  obtain ⟨v4, g4, h⟩ := bind_ok h
  obtain ⟨id0, d4, h⟩ := bind_ok h
  obtain ⟨v5, g5, h⟩ := bind_ok h
  obtain ⟨vv, d5, h⟩ := bind_ok h
  obtain ⟨v6, g6, h⟩ := bind_ok h
  obtain ⟨text, d6, h⟩ := bind_ok h
  obtain ⟨v7, g7, h⟩ := bind_ok h
  obtain ⟨updatedAt, d7, h⟩ := bind_ok h
  obtain ⟨v8, g8, h⟩ := bind_ok h
  obtain ⟨createdAt, d8, h⟩ := bind_ok h
  obtain ⟨v9, g9, h⟩ := bind_ok h
  obtain ⟨status, d9, h⟩ := bind_ok h
  obtain ⟨v10, g10, h⟩ := bind_ok h
  obtain ⟨user, d10, h⟩ := bind_ok h
  constructor
  · intro name hname
    simp only [catFactFieldNames, List.mem_cons, List.not_mem_nil, or_false] at hname
    rcases hname with rfl | rfl | rfl | rfl | rfl | rfl | rfl | rfl | rfl | rfl | rfl
    · exact ⟨v0, g0⟩
    · exact ⟨v1, g1⟩
    · exact ⟨v2, g2⟩
    · exact ⟨v3, g3⟩
    · exact ⟨v4, g4⟩
    · exact ⟨v5, g5⟩
    · exact ⟨v6, g6⟩
    · exact ⟨v7, g7⟩
    · exact ⟨v8, g8⟩
    · exact ⟨v9, g9⟩
    · exact ⟨v10, g10⟩
  · intro k v ty hm hty
    by_cases h0 : k = "used"
    · subst h0
      have e : some JTy.bool = some ty := hty
      injection e with e; subst e
      rw [mem_eq_of_getUnique_ok g0 hm]; exact decodeBool_ty d0
    by_cases h1 : k = "source"
    · subst h1
      have e : some JTy.str = some ty := hty
      injection e with e; subst e
      rw [mem_eq_of_getUnique_ok g1 hm]; exact decodeStr_ty d1
    by_cases h2 : k = "type"
    · subst h2
      have e : some JTy.str = some ty := hty
      injection e with e; subst e
      rw [mem_eq_of_getUnique_ok g2 hm]; exact decodeStr_ty d2
    by_cases h3 : k = "deleted"
    · subst h3
      have e : some JTy.bool = some ty := hty
      injection e with e; subst e
      rw [mem_eq_of_getUnique_ok g3 hm]; exact decodeBool_ty d3
    by_cases h4 : k = "_id"
    · subst h4
      have e : some JTy.str = some ty := hty
      injection e with e; subst e
      rw [mem_eq_of_getUnique_ok g4 hm]; exact decodeStr_ty d4
    by_cases h5 : k = "__v"
    · subst h5
      have e : some JTy.int = some ty := hty
      injection e with e; subst e
      rw [mem_eq_of_getUnique_ok g5 hm]; exact decodeI32_ty d5
    by_cases h6 : k = "text"
    · subst h6
      have e : some JTy.str = some ty := hty
      injection e with e; subst e
      rw [mem_eq_of_getUnique_ok g6 hm]; exact decodeStr_ty d6
    by_cases h7 : k = "updatedAt"
    · subst h7
      have e : some JTy.str = some ty := hty
      injection e with e; subst e
      rw [mem_eq_of_getUnique_ok g7 hm]; exact decodeStr_ty d7
    by_cases h8 : k = "createdAt"
    · subst h8
      have e : some JTy.str = some ty := hty
      injection e with e; subst e
      rw [mem_eq_of_getUnique_ok g8 hm]; exact decodeStr_ty d8
    by_cases h9 : k = "status"
    · subst h9
      have e : some JTy.stat = some ty := hty
      injection e with e; subst e
      rw [mem_eq_of_getUnique_ok g9 hm]; exact statusFromJson_ty d9
    by_cases h10 : k = "user"
    · subst h10
      have e : some JTy.str = some ty := hty
      injection e with e; subst e
      rw [mem_eq_of_getUnique_ok g10 hm]; exact decodeStr_ty d10
    simp only [catFactFieldTy, if_neg h0, if_neg h1, if_neg h2, if_neg h3, if_neg h4,
      if_neg h5, if_neg h6, if_neg h7, if_neg h8, if_neg h9, if_neg h10] at hty
    exact Option.noConfusion hty

example : (runMain healthyEnv).2 = 0 := by rfl
example : (savedRecords (runMain healthyEnv).1).length = 5 := by rfl
example : infoLines (runMain healthyEnv).1 =
    ["Starting up", "Written one file with key: key1",
     "Written one file with key: key2", "Written one file with key: key3",
     "Written one file with key: key4", "Written one file with key: key5"] := by rfl

/-- A missing schema field makes decoding fail. -/
theorem fromJson_missing {fields : List (String × Json)} {name : String}
    (hname : name ∈ catFactFieldNames) (habs : ¬ name ∈ fields.map Prod.fst) :
    ∀ r, ¬ CatFact.fromJson (Json.obj fields) = Except.ok r := by
  intro r h
  obtain ⟨w, hw⟩ := (fromJson_ok_fields h).1 name hname
  rw [getUnique_missing habs] at hw
  exact Except.noConfusion hw

/-- The status guard fires exactly on the 400–599 range. -/
theorem statusBad_iff {s : Nat} : statusBad s = true ↔ (400 ≤ s ∧ s ≤ 599) := by
  simp only [statusBad, isClientError, isServerError, Bool.or_eq_true, Bool.and_eq_true,
    decide_eq_true_eq]
  omega

/-- A successful iteration's trace is exactly fetch, save, success log,
5000 ms sleep. -/
theorem iterStep_succ_shape {env : Env} {n : Nat} (h : (iterStep env n).2 = none) :
    ∃ key rec, iterStep env n =
      ([Event.fetchStart n, Event.savedRec n key rec, Event.logSave key,
        Event.sleepMs 5000], none) := by
  cases hf : env.fetch n with
  | err m => simp [iterStep, hf] at h
  | ok resp =>
    by_cases hs : statusBad resp.status
    · simp [iterStep, hf, hs] at h
    · cases hb : resp.body with
      | error m => simp [iterStep, afterStatus, hf, hs, hb] at h
      | ok j =>
        cases hd : CatFact.fromJson j with
        | error m => simp [iterStep, afterStatus, hf, hs, hb, hd] at h
        | ok rec =>
          cases hsv : env.save n rec with
          | error m => simp [iterStep, afterStatus, saveStep, hf, hs, hb, hd, hsv] at h
          | ok key =>
            exact ⟨key, rec, by simp [iterStep, afterStatus, saveStep, hf, hs, hb, hd, hsv]⟩

/-- A failing iteration persists nothing, sleeps never, logs nothing, and
performs exactly one fetch. -/
theorem iterStep_fail_counts {env : Env} {n : Nat} (h : ((iterStep env n).2).isSome = true) :
    savedRecords (iterStep env n).1 = [] ∧ sleepCount (iterStep env n).1 = 0 ∧
    saveLogCount (iterStep env n).1 = 0 ∧ infoLines (iterStep env n).1 = [] ∧
    fetchCount (iterStep env n).1 = 1 ∧
    (∀ ms, ¬ Event.sleepMs ms ∈ (iterStep env n).1) ∧
    (∀ m k r, ¬ Event.savedRec m k r ∈ (iterStep env n).1) := by
  cases hf : env.fetch n with
  | err m =>
    simp [iterStep, hf, savedRecords, sleepCount, saveLogCount, infoLines, fetchCount,
      Event.infoLine]
  | ok resp =>
    by_cases hs : statusBad resp.status
    · simp [iterStep, hf, hs, savedRecords, sleepCount, saveLogCount, infoLines, fetchCount,
        Event.infoLine]
    · cases hb : resp.body with
      | error m =>
        simp [iterStep, afterStatus, hf, hs, hb, savedRecords, sleepCount, saveLogCount,
          infoLines, fetchCount, Event.infoLine]
      | ok j =>
        cases hd : CatFact.fromJson j with
        | error m =>
          simp [iterStep, afterStatus, hf, hs, hb, hd, savedRecords, sleepCount, saveLogCount,
            infoLines, fetchCount, Event.infoLine]
        | ok rec =>
          cases hsv : env.save n rec with
          | error m =>
            simp [iterStep, afterStatus, saveStep, hf, hs, hb, hd, hsv, savedRecords,
              sleepCount, saveLogCount, infoLines, fetchCount, Event.infoLine]
          | ok key => simp [iterStep, afterStatus, saveStep, hf, hs, hb, hd, hsv] at h

/-- The decode/save phase never emits a status-error event. -/
theorem statusError_not_in_afterStatus (env : Env) (n : Nat) (b : Except String Json)
    (s : Nat) : ¬ Event.statusError s ∈ (afterStatus env n b).1 := by
  cases b with
  | error m => simp [afterStatus]
  | ok j =>
    cases hd : CatFact.fromJson j with
    | error m => simp [afterStatus, hd]
    | ok rec =>
      cases hsv : env.save n rec with
      | error m => simp [afterStatus, saveStep, hd, hsv]
      | ok key => simp [afterStatus, saveStep, hd, hsv]

/-- A healthy iteration succeeds, with the canonical four-event trace. -/
theorem iterStep_healthy {env : Env} {n : Nat} (h : healthyAt env n) :
    ∃ key rec, iterStep env n =
      ([Event.fetchStart n, Event.savedRec n key rec, Event.logSave key,
        Event.sleepMs 5000], none) := by
  obtain ⟨s, j, rec, key, hf, hs, hd, hsv⟩ := h
  exact ⟨key, rec, by simp [iterStep, afterStatus, saveStep, hf, hs, hd, hsv]⟩

/-- Unfolding of the loop when iteration `n` succeeds. -/
theorem runLoop_succ_unfold (env : Env) (n fuel : Nat) (h : (iterStep env n).2 = none) :
    runLoop env n (fuel + 1) =
      ((iterStep env n).1 ++ (runLoop env (n + 1) fuel).1, (runLoop env (n + 1) fuel).2) := by
  simp only [runLoop]
  rw [h]

/-- Unfolding of the loop when iteration `n` fails. -/
theorem runLoop_fail_unfold (env : Env) (n fuel : Nat)
    (h : ((iterStep env n).2).isSome = true) :
    runLoop env n (fuel + 1) = ((iterStep env n).1, 1) := by
  obtain ⟨m, hm⟩ := Option.isSome_iff_exists.mp h
  simp only [runLoop]
  rw [hm]

/-- Saved records distribute over trace concatenation. -/
theorem savedRecords_append (a b : List Event) :
    savedRecords (a ++ b) = savedRecords a ++ savedRecords b :=
  List.filterMap_append a b _

/-- Info lines distribute over trace concatenation. -/
theorem infoLines_append (a b : List Event) :
    infoLines (a ++ b) = infoLines a ++ infoLines b :=
  List.filterMap_append a b _

/-- Sleep counts add over trace concatenation. -/
theorem sleepCount_append (a b : List Event) :
    sleepCount (a ++ b) = sleepCount a + sleepCount b :=
  List.countP_append _ a b

/-- Save-log counts add over trace concatenation. -/
theorem saveLogCount_append (a b : List Event) :
    saveLogCount (a ++ b) = saveLogCount a + saveLogCount b :=
  List.countP_append _ a b

/-- Fetch counts add over trace concatenation. -/
theorem fetchCount_append (a b : List Event) :
    fetchCount (a ++ b) = fetchCount a + fetchCount b :=
  List.countP_append _ a b

/-- Counts on the canonical successful-iteration trace. -/
theorem succTrace_counts (n : Nat) (key : String) (rec : CatFact) :
    savedRecords [Event.fetchStart n, Event.savedRec n key rec, Event.logSave key,
        Event.sleepMs 5000] = [(key, rec)] ∧
    infoLines [Event.fetchStart n, Event.savedRec n key rec, Event.logSave key,
        Event.sleepMs 5000] = ["Written one file with key: " ++ key] ∧
    sleepCount [Event.fetchStart n, Event.savedRec n key rec, Event.logSave key,
        Event.sleepMs 5000] = 1 ∧
    saveLogCount [Event.fetchStart n, Event.savedRec n key rec, Event.logSave key,
        Event.sleepMs 5000] = 1 ∧
    fetchCount [Event.fetchStart n, Event.savedRec n key rec, Event.logSave key,
        Event.sleepMs 5000] = 1 :=
  ⟨rfl, rfl, rfl, rfl, rfl⟩

/-- On an all-healthy window, `fuel` iterations all persist, log and sleep
once each, and the loop returns exit code 0. -/
theorem runLoop_healthy (env : Env) : ∀ fuel n,
    (∀ m, n ≤ m → m < n + fuel → healthyAt env m) →
    (runLoop env n fuel).2 = 0 ∧
    (savedRecords (runLoop env n fuel).1).length = fuel ∧
    saveLogCount (runLoop env n fuel).1 = fuel ∧
    fetchCount (runLoop env n fuel).1 = fuel ∧
    sleepCount (runLoop env n fuel).1 = fuel := by
  intro fuel
  induction fuel with
  | zero =>
    intro n _
    simp [runLoop, savedRecords, saveLogCount, fetchCount, sleepCount]
  | succ f ih =>
    intro n h
    obtain ⟨key, rec, hstep⟩ := iterStep_healthy (h n le_rfl (by omega))
    have hnone : (iterStep env n).2 = none := by rw [hstep]
    obtain ⟨c0, c1, c2, c3, c4⟩ := ih (n + 1) (fun m h1 h2 => h m (by omega) (by omega))
    obtain ⟨t0, t1, t2, t3, t4⟩ := succTrace_counts n key rec
    rw [runLoop_succ_unfold env n f hnone, hstep]
    refine ⟨by simp [c0], ?_, ?_, ?_, ?_⟩
    · rw [savedRecords_append, List.length_append, t0, c1]
      simp only [List.length_singleton]
      omega
    · rw [saveLogCount_append, t3, c2]
      omega
    · rw [fetchCount_append, t4, c3]
      omega
    · rw [sleepCount_append, t2, c4]
      omega

/-- If iterations `n .. n+j-1` are healthy and iteration `n+j` fails (with
`j < fuel`), the loop exits with code 1, persists exactly the `j` records of
the healthy prefix, sleeps exactly `j` times, and every persisted record
belongs to an iteration before the failing one. -/
theorem runLoop_fail (env : Env) : ∀ j fuel n, j < fuel →
    (∀ m, n ≤ m → m < n + j → healthyAt env m) →
    ((iterStep env (n + j)).2).isSome = true →
    (runLoop env n fuel).2 = 1 ∧
    (savedRecords (runLoop env n fuel).1).length = j ∧
    sleepCount (runLoop env n fuel).1 = j ∧
    (∀ m k r, Event.savedRec m k r ∈ (runLoop env n fuel).1 → m < n + j) := by
  intro j
  induction j with
  | zero =>
    intro fuel n hj hh hfail
    obtain ⟨f, rfl⟩ : ∃ f, fuel = f + 1 := ⟨fuel - 1, by omega⟩
    rw [Nat.add_zero] at hfail
    obtain ⟨c0, c1, _, _, _, _, c6⟩ := iterStep_fail_counts hfail
    rw [runLoop_fail_unfold env n f hfail]
    exact ⟨rfl, by rw [c0]; rfl, c1, fun m k r hm => absurd hm (c6 m k r)⟩
  | succ jp ih =>
    intro fuel n hj hh hfail
    obtain ⟨f, rfl⟩ : ∃ f, fuel = f + 1 := ⟨fuel - 1, by omega⟩
    obtain ⟨key, rec, hstep⟩ := iterStep_healthy (hh n le_rfl (by omega))
    have hnone : (iterStep env n).2 = none := by rw [hstep]
    have hfail2 : ((iterStep env (n + 1 + jp)).2).isSome = true := by
      have e : n + 1 + jp = n + (jp + 1) := by omega
      rw [e]; exact hfail
    obtain ⟨c0, c1, c2, c3⟩ :=
      ih f (n + 1) (by omega) (fun m h1 h2 => hh m (by omega) (by omega)) hfail2
    obtain ⟨t0, _, t2, _, _⟩ := succTrace_counts n key rec
    rw [runLoop_succ_unfold env n f hnone, hstep]
    refine ⟨by simp [c0], ?_, ?_, ?_⟩
    · rw [savedRecords_append, List.length_append, t0, c1]
      simp only [List.length_singleton]
      omega
    · rw [sleepCount_append, t2, c2]
      omega
    · intro m k r hm
      rcases List.mem_append.mp hm with hl | hr
      · simp only [List.mem_cons, List.not_mem_nil, or_false] at hl
        rcases hl with h | h | h | h
        all_goals first
          | (cases h; omega)
          | exact absurd h (by simp)
      · have := c3 m k r hr
        omega

/-- In every loop trace the info lines are exactly one success line per
persisted record (in order, reporting its key), and sleeps happen exactly
once per persisted record. -/
theorem runLoop_log_counts (env : Env) : ∀ fuel n,
    infoLines (runLoop env n fuel).1 =
      (savedRecords (runLoop env n fuel).1).map
        (fun kr => "Written one file with key: " ++ kr.1) ∧
    sleepCount (runLoop env n fuel).1 = (savedRecords (runLoop env n fuel).1).length ∧
    saveLogCount (runLoop env n fuel).1 = (savedRecords (runLoop env n fuel).1).length := by
  intro fuel
  induction fuel with
  | zero =>
    intro n
    simp [runLoop, infoLines, savedRecords, sleepCount, saveLogCount]
  | succ f ih =>
    intro n
    cases h2 : (iterStep env n).2 with
    | some m =>
      have hfail : ((iterStep env n).2).isSome = true := by rw [h2]; rfl
      obtain ⟨c0, c1, c2, c3, _⟩ := iterStep_fail_counts hfail
      rw [runLoop_fail_unfold env n f hfail]
      simp [c0, c1, c2, c3]
    | none =>
      obtain ⟨key, rec, hstep⟩ := iterStep_succ_shape h2
      obtain ⟨i0, i1, i2⟩ := ih (n + 1)
      obtain ⟨t0, t1, t2, t3, _⟩ := succTrace_counts n key rec
      rw [runLoop_succ_unfold env n f h2, hstep]
      refine ⟨?_, ?_, ?_⟩
      · rw [infoLines_append, savedRecords_append, List.map_append, t0, t1, i0]
        rfl
      · rw [sleepCount_append, savedRecords_append, List.length_append, t0, t2, i1]
        simp only [List.length_singleton]
      · rw [saveLogCount_append, savedRecords_append, List.length_append, t0, t3, i2]
        simp only [List.length_singleton]

/-- Fields with names outside the schema do not affect `getUnique` for a
schema name. -/
theorem getUnique_append_unknown {fields extra : List (String × Json)} {name : String}
    (hex : ∀ p, p ∈ extra → ¬ p.1 ∈ catFactFieldNames) (hname : name ∈ catFactFieldNames) :
    getUnique (fields ++ extra) name = getUnique fields name := by
  unfold getUnique
  rw [List.filter_append]
  have hnil : extra.filter (fun p => p.1 = name) = [] := by
    refine List.filter_eq_nil_iff.mpr ?_
    intro p hp hpn
    refine hex p hp ?_
    have : p.1 = name := by simpa using hpn
    rw [this]
    exact hname
  rw [hnil, List.append_nil]

/-- Prepending the startup log line changes no persistence or sleep count
and adds exactly the startup info line. -/
theorem logStart_cons_counts (tr : List Event) :
    savedRecords (Event.logStart :: tr) = savedRecords tr ∧
    fetchCount (Event.logStart :: tr) = fetchCount tr ∧
    saveLogCount (Event.logStart :: tr) = saveLogCount tr ∧
    sleepCount (Event.logStart :: tr) = sleepCount tr ∧
    infoLines (Event.logStart :: tr) = "Starting up" :: infoLines tr :=
  ⟨rfl, rfl, rfl, rfl, rfl⟩

/-- C1: on a healthy upstream (the store opens, every fetch succeeds with a
non-4xx/5xx status, every body decodes, every save succeeds), the run loop
executes exactly 5 iterations, persists exactly 5 records via save, emits
exactly 5 per-save success log lines, and the process exits with status 0. -/
theorem C1_healthy_run (env : Env) (hopen : env.openResult = Except.ok ())
    (h : ∀ n, 1 ≤ n → n ≤ 5 → healthyAt env n) :
    (runMain env).2 = 0 ∧ fetchCount (runMain env).1 = 5 ∧
    (savedRecords (runMain env).1).length = 5 ∧ saveLogCount (runMain env).1 = 5 := by
  obtain ⟨c0, c1, c2, c3, c4⟩ := runLoop_healthy env 5 1 (fun m h1 h2 => h m h1 (by omega))
  obtain ⟨l0, l1, l2, l3, l4⟩ := logStart_cons_counts (runLoop env 1 5).1
  simp only [runMain, hopen]
  exact ⟨c0, by rw [l1]; exact c3, by rw [l0]; exact c1, by rw [l2]; exact c2⟩

/-- C1 witness: the all-healthy environment realizes the hypotheses. -/
theorem C1_healthy_run_witness :
    (runMain healthyEnv).2 = 0 ∧ fetchCount (runMain healthyEnv).1 = 5 ∧
    (savedRecords (runMain healthyEnv).1).length = 5 ∧
    saveLogCount (runMain healthyEnv).1 = 5 :=
  C1_healthy_run healthyEnv rfl
    (fun n _ _ => ⟨200, sampleJson, sampleRec, "key" ++ toString n, rfl, rfl, rfl, rfl⟩)

/-- C2 counterexample: a body carrying the extra field `bonus`, which is not
in the `CatFact` schema, still decodes successfully, because serde's derive
without `deny_unknown_fields` ignores unknown fields; so the claim that an
extra field fails decoding is false on this input. -/
theorem C2_extra_field_counterexample :
    ¬ "bonus" ∈ catFactFieldNames ∧
    CatFact.fromJson extraFieldJson = Except.ok sampleRec :=
  ⟨by decide, by rfl⟩

/-- C2 amended: decoding fails whenever a required field of the Record
schema is missing or a schema field's value has the wrong type; fields not
in the schema are ignored and leave the decode result unchanged; in
particular a body omitting `text` fails the iteration with no record saved
for that attempt. -/
theorem C2_amended_decode_failures :
    (∀ fields name, name ∈ catFactFieldNames → ¬ name ∈ fields.map Prod.fst →
      ∀ r, ¬ CatFact.fromJson (Json.obj fields) = Except.ok r) ∧
    (∀ fields k v ty, (k, v) ∈ fields → catFactFieldTy k = some ty →
      tyMatches ty v = false → ∀ r, ¬ CatFact.fromJson (Json.obj fields) = Except.ok r) ∧
    (∀ fields extra, (∀ p, p ∈ extra → ¬ p.1 ∈ catFactFieldNames) →
      CatFact.fromJson (Json.obj (fields ++ extra)) = CatFact.fromJson (Json.obj fields)) ∧
    (∀ env n s fields, env.fetch n = FetchOutcome.ok ⟨s, Except.ok (Json.obj fields)⟩ →
      statusBad s = false → ¬ "text" ∈ fields.map Prod.fst →
      savedRecords (iterStep env n).1 = [] ∧ ((iterStep env n).2).isSome = true) := by
  refine ⟨fun fields name h1 h2 => fromJson_missing h1 h2, ?_, ?_, ?_⟩
  · intro fields k v ty hm hty hbad r h
    have := (fromJson_ok_fields h).2 k v ty hm hty
    rw [this] at hbad
    exact Bool.noConfusion hbad
  · intro fields extra hex
    simp only [CatFact.fromJson]
    rw [getUnique_append_unknown hex (by decide : "used" ∈ catFactFieldNames),
        getUnique_append_unknown hex (by decide : "source" ∈ catFactFieldNames),
        getUnique_append_unknown hex (by decide : "type" ∈ catFactFieldNames),
        getUnique_append_unknown hex (by decide : "deleted" ∈ catFactFieldNames),
        getUnique_append_unknown hex (by decide : "_id" ∈ catFactFieldNames),
        getUnique_append_unknown hex (by decide : "__v" ∈ catFactFieldNames),
        getUnique_append_unknown hex (by decide : "text" ∈ catFactFieldNames),
        getUnique_append_unknown hex (by decide : "updatedAt" ∈ catFactFieldNames),
        getUnique_append_unknown hex (by decide : "createdAt" ∈ catFactFieldNames),
        getUnique_append_unknown hex (by decide : "status" ∈ catFactFieldNames),
        getUnique_append_unknown hex (by decide : "user" ∈ catFactFieldNames)]
  · intro env n s fields hf hs htext
    have hfail : ∀ r, ¬ CatFact.fromJson (Json.obj fields) = Except.ok r :=
      fromJson_missing (by decide) htext
    cases hd : CatFact.fromJson (Json.obj fields) with
    | ok r => exact absurd hd (hfail r)
    | error m =>
      constructor
      · simp [iterStep, afterStatus, hf, hs, hd, savedRecords]
      · simp [iterStep, afterStatus, hf, hs, hd]

/-- C2 witness: the concrete `text`-less body fails to decode. -/
theorem C2_amended_witness :
    ¬ CatFact.fromJson (Json.obj textlessFields) = Except.ok sampleRec :=
  C2_amended_decode_failures.1 textlessFields "text" (by decide) (by decide) sampleRec

/-- C3: once a response is fetched, the run aborts with an error naming the
status code iff the status lies in 400–499 or 500–599, and for every status
outside those ranges the iteration proceeds to the decode phase
(`afterStatus`). -/
theorem C3_status_validator (env : Env) (n s : Nat) (b : Except String Json)
    (hf : env.fetch n = FetchOutcome.ok ⟨s, b⟩) :
    ((400 ≤ s ∧ s ≤ 599) →
      iterStep env n = ([Event.fetchStart n, Event.statusError s],
        some ("Server responded with: " ++ toString s))) ∧
    (¬ (400 ≤ s ∧ s ≤ 599) →
      iterStep env n =
        (Event.fetchStart n :: (afterStatus env n b).1, (afterStatus env n b).2)) ∧
    (Event.statusError s ∈ (iterStep env n).1 ↔ (400 ≤ s ∧ s ≤ 599)) := by
  cases hs : statusBad s with
  | true =>
    have hr : 400 ≤ s ∧ s ≤ 599 := statusBad_iff.mp hs
    refine ⟨fun _ => by simp [iterStep, hf, hs], fun hn => absurd hr hn, ?_⟩
    constructor
    · intro _
      exact hr
    · intro _
      simp [iterStep, hf, hs]
  | false =>
    have hr : ¬ (400 ≤ s ∧ s ≤ 599) := fun hc => by rw [statusBad_iff.mpr hc] at hs; exact Bool.noConfusion hs
    have hshape : iterStep env n =
        (Event.fetchStart n :: (afterStatus env n b).1, (afterStatus env n b).2) := by
      simp [iterStep, hf, hs]
    refine ⟨fun hc => absurd hc hr, fun _ => hshape, ?_⟩
    constructor
    · intro hmem
      rw [hshape] at hmem
      simp only [List.mem_cons] at hmem
      rcases hmem with h | h
      · exact absurd h (by simp)
      · exact absurd h (statusError_not_in_afterStatus env n b s)
    · intro hc
      exact absurd hc hr

/-- C3 witness: a 404 response aborts the run with a message naming 404. -/
theorem C3_status_validator_witness :
    iterStep env404 1 = ([Event.fetchStart 1, Event.statusError 404],
      some ("Server responded with: " ++ toString 404)) :=
  (C3_status_validator env404 1 404 (Except.ok sampleJson) rfl).1 (by omega)

/-- C4: if iterations before `n` are healthy and iteration `n` fails (from
any of the four error kinds: transport, HTTP status, decode, or store
error), the process exits with status 1, exactly the `n - 1` previously
saved records are persisted, and every persisted record belongs to an
iteration before `n` — so nothing was saved for the failed attempt and the
prior records are intact. -/
theorem C4_error_terminates (env : Env) (n : Nat) (h1 : 1 ≤ n) (h5 : n ≤ 5)
    (hopen : env.openResult = Except.ok ())
    (hprior : ∀ m, 1 ≤ m → m < n → healthyAt env m)
    (hfail : ((iterStep env n).2).isSome = true) :
    (runMain env).2 = 1 ∧
    (savedRecords (runMain env).1).length = n - 1 ∧
    (∀ m k r, Event.savedRec m k r ∈ (runMain env).1 → m < n) := by
  have e : 1 + (n - 1) = n := by omega
  obtain ⟨c0, c1, c2, c3⟩ := runLoop_fail env (n - 1) 5 1 (by omega)
      (fun m hm1 hm2 => hprior m hm1 (by omega)) (by rw [e]; exact hfail)
  obtain ⟨l0, _, _, _, _⟩ := logStart_cons_counts (runLoop env 1 5).1
  simp only [runMain, hopen]
  refine ⟨c0, by rw [l0]; exact c1, ?_⟩
  intro m k r hm
  simp only [List.mem_cons] at hm
  rcases hm with h | h
  · exact absurd h (by simp)
  · have := c3 m k r h
    omega

/-- C4 witness: HTTP 404 at iteration 3 ends the run with code 1, two
records saved, both from iterations before 3. -/
theorem C4_error_terminates_witness :
    (runMain envFailAt3).2 = 1 ∧
    (savedRecords (runMain envFailAt3).1).length = 3 - 1 ∧
    (∀ m k r, Event.savedRec m k r ∈ (runMain envFailAt3).1 → m < 3) :=
  C4_error_terminates envFailAt3 3 (by omega) (by omega) rfl
    (by
      intro m hm1 hm2
      interval_cases m
      · exact ⟨200, sampleJson, sampleRec, "key" ++ toString 1, rfl, rfl, rfl, rfl⟩
      · exact ⟨200, sampleJson, sampleRec, "key" ++ toString 2, rfl, rfl, rfl, rfl⟩)
    (by rfl)

/-- C5: decoding is deterministic — two successful decodes of the same body
yield equal records, in particular with identical nested status
sub-records. -/
theorem C5_decode_deterministic (body : Json) (r1 r2 : CatFact)
    (h1 : CatFact.fromJson body = Except.ok r1)
    (h2 : CatFact.fromJson body = Except.ok r2) :
    r1 = r2 ∧ r1.status = r2.status := by
  rw [h1] at h2
  injection h2 with h2
  subst h2
  exact ⟨rfl, rfl⟩

/-- C5 witness: the sample body decodes to the same record both times. -/
theorem C5_decode_deterministic_witness :
    sampleRec = sampleRec ∧ sampleRec.status = sampleRec.status :=
  C5_decode_deterministic sampleJson sampleRec sampleRec rfl rfl

/-- C6: every successful iteration's trace ends with the 5000 ms sleep
(after the save), and the next iteration's events — starting with its
fetch — come strictly after it in the loop trace; with `fuel = 0` the same
unfolding shows the 5th iteration also sleeps before the loop exits. -/
theorem C6_sleep_before_next (env : Env) (n : Nat) (h : (iterStep env n).2 = none) :
    (∃ key rec, iterStep env n = ([Event.fetchStart n, Event.savedRec n key rec,
        Event.logSave key, Event.sleepMs 5000], none)) ∧
    (∀ fuel, runLoop env n (fuel + 1) =
      ((iterStep env n).1 ++ (runLoop env (n + 1) fuel).1, (runLoop env (n + 1) fuel).2)) :=
  ⟨iterStep_succ_shape h, fun fuel => runLoop_succ_unfold env n fuel h⟩

/-- C6 witness: iteration 1 of the healthy environment. -/
theorem C6_sleep_before_next_witness :
    (∃ key rec, iterStep healthyEnv 1 = ([Event.fetchStart 1, Event.savedRec 1 key rec,
        Event.logSave key, Event.sleepMs 5000], none)) ∧
    (∀ fuel, runLoop healthyEnv 1 (fuel + 1) =
      ((iterStep healthyEnv 1).1 ++ (runLoop healthyEnv 2 fuel).1,
       (runLoop healthyEnv 2 fuel).2)) :=
  C6_sleep_before_next healthyEnv 1 rfl

/-- C7: in every run the informational lines are exactly the startup line
followed by one line per successful save reporting the generated key, in
order — nothing else. -/
theorem C7_logging (env : Env) :
    infoLines (runMain env).1 =
      "Starting up" :: (savedRecords (runMain env).1).map
        (fun kr => "Written one file with key: " ++ kr.1) := by
  cases ho : env.openResult with
  | error m => simp [runMain, ho, infoLines, savedRecords, Event.infoLine]
  | ok u =>
    obtain ⟨i0, _, _⟩ := runLoop_log_counts env 5 1
    obtain ⟨l0, _, _, _, l4⟩ := logStart_cons_counts (runLoop env 1 5).1
    simp only [runMain, ho]
    rw [l4, l0, i0]

/-- C8: an iteration sleeps exactly when it succeeds (a failing iteration
exits without its sleep), and over any whole run the number of sleeps
equals the number of saved records. -/
theorem C8_sleep_iff_success :
    (∀ env n, (iterStep env n).2 = none ↔ Event.sleepMs 5000 ∈ (iterStep env n).1) ∧
    (∀ env, sleepCount (runMain env).1 = (savedRecords (runMain env).1).length) := by
  constructor
  · intro env n
    constructor
    · intro h
      obtain ⟨key, rec, hstep⟩ := iterStep_succ_shape h
      rw [hstep]
      simp
    · intro hmem
      cases h2 : (iterStep env n).2 with
      | none => rfl
      | some m =>
        obtain ⟨_, _, _, _, _, c5, _⟩ := iterStep_fail_counts (by rw [h2]; rfl)
        exact absurd hmem (c5 5000)
  · intro env
    cases ho : env.openResult with
    | error m => simp [runMain, ho, sleepCount, savedRecords]
    | ok u =>
      obtain ⟨_, i1, _⟩ := runLoop_log_counts env 5 1
      obtain ⟨l0, _, _, l3, _⟩ := logStart_cons_counts (runLoop env 1 5).1
      simp only [runMain, ho]
      rw [l3, l0, i1]

/-- C9: any successfully decoded record is handed to the store's save
unconditionally — no predicate on its field values (`deleted`, `used`, …)
guards the save — and a successful save persists exactly that record. -/
theorem C9_save_unconditional (env : Env) (n s : Nat) (j : Json) (rec : CatFact)
    (hf : env.fetch n = FetchOutcome.ok ⟨s, Except.ok j⟩)
    (hs : statusBad s = false) (hd : CatFact.fromJson j = Except.ok rec) :
    iterStep env n = (Event.fetchStart n :: (saveStep env n rec).1, (saveStep env n rec).2) ∧
    (∀ key, env.save n rec = Except.ok key → Event.savedRec n key rec ∈ (iterStep env n).1) := by
  have hshape : iterStep env n =
      (Event.fetchStart n :: (saveStep env n rec).1, (saveStep env n rec).2) := by
    simp [iterStep, afterStatus, hf, hs, hd]
  refine ⟨hshape, ?_⟩
  intro key hk
  rw [hshape]
  simp [saveStep, hk]

/-- C9 witness: a record with `deleted = true` and `used = true` is saved
exactly like any other. -/
theorem C9_save_unconditional_witness :
    (iterStep envDeleted 1 =
      (Event.fetchStart 1 :: (saveStep envDeleted 1 deletedRec).1,
       (saveStep envDeleted 1 deletedRec).2) ∧
     (∀ key, envDeleted.save 1 deletedRec = Except.ok key →
       Event.savedRec 1 key deletedRec ∈ (iterStep envDeleted 1).1)) ∧
    deletedRec.deleted = true ∧ deletedRec.used = true :=
  ⟨C9_save_unconditional envDeleted 1 200 deletedJson deletedRec rfl rfl rfl, rfl, rfl⟩

/-- C10: if opening the store fails at startup, the process exits with a
non-zero status and no fetch is ever started — store initialization happens
once, before the first iteration's fetch. -/
theorem C10_open_failure (env : Env) (m : String)
    (h : env.openResult = Except.error m) :
    (runMain env).2 = 1 ∧ (∀ n, ¬ Event.fetchStart n ∈ (runMain env).1) := by
  simp [runMain, h]

/-- C10 witness: the environment whose store open fails. -/
theorem C10_open_failure_witness :
    (runMain badOpenEnv).2 = 1 ∧
    (∀ n, ¬ Event.fetchStart n ∈ (runMain badOpenEnv).1) :=
  C10_open_failure badOpenEnv "permission denied on data" rfl
